import Mathlib

/-!
Shallow embedding of `src/contracts/fields.py` (viniciuschiele-archive/contracts):
the Field state machine (`Field.__init__`, `bind`, `get_default`, `load`,
`root`, `_fail`, `_validate`), the concrete field kinds `IntegerField._load`
and `StringField._load`, and the Contract orchestration
(`Contract.__init__`, `_load_single`, `_validate`).

Python exceptions are modelled with `Except`; Python objects appearing in
error payloads with the inductive `EVal`; Python values flowing through
`load`/`dump` with `PyVal`.  Python dicts are association lists with
insert-or-overwrite-in-place semantics (`dictSet`), matching CPython's
key-ordering behaviour.
-/

/-- Python values that appear inside error payloads: a `ValidationError`'s
`message` attribute is a string, a list (of further errors), or a dict; the
dict values may themselves be `ValidationError` objects (constructor `exn`,
carrying that error's own message). -/
inductive EVal where
  | str (s : String)
  | num (n : Int)
  | list (xs : List EVal)
  | dict (kvs : List (String × EVal))
  | exn (message : EVal)

/-- The exception taxonomy the embedded code can raise.  `validationError m`
models `ValidationError` with `.message = m`; the rest model the Python
builtin exceptions reachable from `fields.py`. -/
inductive PyExn where
  | validationError (message : EVal)
  | attributeError (name : String)
  | typeError (msg : String)
  | valueError (msg : String)
  | overflowError (msg : String)
  | assertionError (msg : String)
  | notImplementedError

/-- `True` exactly for `ValidationError` (the only exception class
`fields.py` catches with `except ValidationError`). -/
def PyExn.isVE : PyExn → Bool
  | .validationError _ => true
  | _ => false

/-- `isinstance(message, dict)` on an error payload. -/
def EVal.isDict : EVal → Bool
  | .dict _ => true
  | _ => false

/-- A Python float: every finite double is an exact rational; the special
values are kept apart because `int()` treats them specially. -/
inductive PyFloat where
  | finite (q : ℚ)
  | inf
  | ninf
  | nan
deriving DecidableEq

/-- Python values flowing through `load`/`dump`.  `missing` is the sentinel
from `contracts.utils` (a class object used by identity); dict keys are
restricted to strings, which covers every input the claims concern. -/
inductive PyVal where
  | missing
  | none
  | bool (b : Bool)
  | int (n : Int)
  | float (x : PyFloat)
  | str (s : String)
  | list (xs : List PyVal)
  | dict (kvs : List (String × PyVal))

/-- A reference a field's `parent` slot can hold: a contract instance
(identified by an id in the object store) or any other Python value —
`Field.bind` never checks which. -/
inductive PyRef where
  | contractInst (id : Nat)
  | value (v : PyVal)

/-- The `default` argument of `Field.__init__`: absent (`missing`), a
literal value, or a zero-argument callable producer. -/
inductive DefaultV where
  | missingD
  | lit (v : PyVal)
  | producer (f : Unit → PyVal)

/-- A validator is an arbitrary callable: observably it returns a value or
raises; `Field._validate` only inspects `result is False` and the raised
exception. -/
def ValidatorFn : Type := PyVal → Except PyExn PyVal

/-- `value is missing` — identity test against the sentinel. -/
def isMissingV : PyVal → Bool
  | .missing => true
  | _ => false

/-- `value is False` — identity test against the `False` singleton (`0` is
a different object, so it does not match). -/
def isFalseV : PyVal → Bool
  | .bool false => true
  | _ => false

section PyDict

variable {α : Type}

/-- Python `d[k] = v` on a string-keyed dict rendered as an association
list: overwrite in place if the key exists (CPython keeps the original
insertion position), else append. -/
def dictSet : List (String × α) → String → α → List (String × α)
  | [], k, v => [(k, v)]
  | (k1, v1) :: rest, k, v =>
    if k1 = k then (k1, v) :: rest else (k1, v1) :: dictSet rest k v

/-- Python `d.update(m)`: `dictSet` each entry of `m` in order. -/
def dictUpd (d : List (String × α)) (m : List (String × α)) : List (String × α) :=
  m.foldl (fun acc kv => dictSet acc kv.1 kv.2) d

/-- Dict lookup (first occurrence; the dicts built by `dictSet` have unique
keys). -/
def alookup : List (String × α) → String → Option α
  | [], _ => Option.none
  | (k1, v1) :: rest, k => if k1 = k then some v1 else alookup rest k

/-- Python `d.get(k, missing)` specialised to `PyVal` dicts. -/
def dictGet (kvs : List (String × PyVal)) (k : String) : PyVal :=
  (alookup kvs k).getD PyVal.missing

end PyDict

/-! ## Python builtin helpers -/

/-- Characters `str.strip()` removes at the ends of a string (the ASCII
whitespace set; the claims only exercise spaces). -/
def isPyWS (c : Char) : Bool :=
  c == ' ' || c == '\t' || c == '\n' || c == '\r' || c == '\x0b' || c == '\x0c'

/-- Python `str.strip()`. -/
def pyStrip (s : String) : String :=
  String.mk (((s.data.dropWhile isPyWS).reverse.dropWhile isPyWS).reverse)

/-- Python `str(value)`.  Exact for the scalar kinds the claims exercise
(`str`, `int`, `bool`, `None`); container and float rendering is
approximated (no claim applies `str()` to those). -/
def pyStr : PyVal → String
  | .str s => s
  | .int n => toString n
  | .bool true => "True"
  | .bool false => "False"
  | .none => "None"
  | .missing => "<class contracts.utils.missing>"
  | .float _ => "<float>"
  | .list _ => "<list>"
  | .dict _ => "<dict>"

/-- `type(value).__name__`, as interpolated by the contract-level `invalid`
message (`missing` is a class, so its type is `type`). -/
def typeName : PyVal → String
  | .none => "NoneType"
  | .bool _ => "bool"
  | .int _ => "int"
  | .float _ => "float"
  | .str _ => "str"
  | .list _ => "list"
  | .dict _ => "dict"
  | .missing => "type"

/-- Truncation toward zero, the rounding `int()` applies to a finite
float (`Int.div` is T-division, which truncates the quotient toward
zero). -/
def ratTrunc (q : ℚ) : Int :=
  Int.tdiv q.num (q.den : Int)

/-- Digits-only parse of a nonempty decimal string. -/
def decDigits : List Char → Option Nat
  | [] => Option.none
  | [c] => if c.isDigit then some (c.toNat - 48) else Option.none
  | c :: rest =>
    match decDigits rest, c.isDigit with
    | some n, true =>
      some ((c.toNat - 48) * 10 ^ rest.length + n)
    | _, _ => Option.none

/-- Python `int(s)` on text: surrounding whitespace, an optional sign, then
decimal digits; anything else raises `ValueError`. -/
def parseIntText (s : String) : Option Int :=
  match (pyStrip s).data with
  | '+' :: rest => (decDigits rest).map fun n => (n : Int)
  | '-' :: rest => (decDigits rest).map fun n => -(n : Int)
  | rest => (decDigits rest).map fun n => (n : Int)

/-- The builtin `int(value)`: exact on ints and bools, truncation toward
zero on finite floats (`ValueError` on NaN, `OverflowError` on infinities,
which `IntegerField._load` does NOT catch), decimal parse on text
(`ValueError` on failure), `TypeError` on non-numeric non-text values. -/
def pyInt : PyVal → Except PyExn Int
  | .bool b => .ok (if b then 1 else 0)
  | .int n => .ok n
  | .float (.finite q) => .ok (ratTrunc q)
  | .float .nan => .error (.valueError "cannot convert float NaN to integer")
  | .float .inf => .error (.overflowError "cannot convert float infinity to integer")
  | .float .ninf => .error (.overflowError "cannot convert float infinity to integer")
  | .str s =>
    match parseIntText s with
    | some n => .ok n
    | Option.none => .error (.valueError ("invalid literal for int() with base 10: " ++ s))
  | .none => .error (.typeError "int() argument must be a string or a number, not NoneType")
  | .missing => .error (.typeError "int() argument must be a string or a number, not type")
  | .list _ => .error (.typeError "int() argument must be a string or a number, not list")
  | .dict _ => .error (.typeError "int() argument must be a string or a number, not dict")

/-- Modelled from the spec: `formatting.format_error_message` lives in
`contracts/utils.py`, which is not under `src/`; per spec §4.1 it
"formats template parameters into the message", i.e. substitutes each
named `\x7bkey\x7d` placeholder with the supplied parameter text. -/
def formatMsg (template : String) (kwargs : List (String × String)) : String :=
  kwargs.foldl (fun s kv => s.replace ("\x7b" ++ kv.1 ++ "\x7d") kv.2) template

/-! ## Field (fields.py lines 15-151) -/

/-- The concrete field kind, selecting the `_load` override.  The base
`Field` has no `_load` (it raises `NotImplementedError`); `StringField`
carries the two flags its `_load` reads.  (`IntegerField`'s `min_value` and
`max_value` are consumed only when its `__init__` installs the range
validator, so they live in `integerFieldInit`, not here.) -/
inductive FKind where
  | generic
  | integer
  | stringK (allow_blank : Bool) (trim_whitespace : Bool)

/-- The instance attributes `Field.__init__`/`bind` assign.  `cached_root`
models the `_cached_root` attribute consumed by the `root` property:
`Option.none` while the attribute is unset (which `__init__` leaves it as),
`some b` standing for a cached root object whose `partial` attribute reads
back as `b` (the only thing `load` extracts from the root). -/
structure FieldState where
  kind : FKind
  dump_only : Bool
  load_only : Bool
  required : Bool
  default : DefaultV
  allow_none : Bool
  dump_to : Option String
  load_from : Option String
  error_messages : List (String × EVal)
  validators : List ValidatorFn
  field_name : Option String
  parent : Option PyRef
  cached_root : Option Bool

/-- `Field.default_error_messages` (lines 16-20). -/
def fieldDEM : List (String × EVal) :=
  [("required", .str "This field is required."),
   ("null", .str "This field may not be null."),
   ("validator_failed", .str "Invalid value.")]

/-- `IntegerField.default_error_messages` (lines 155-159). -/
def integerDEM : List (String × EVal) :=
  [("invalid", .str "A valid integer is required."),
   ("max_value", .str "Must be at most {max_value}."),
   ("min_value", .str "Must be at least {min_value}.")]

/-- `StringField.default_error_messages` (lines 180-184). -/
def stringDEM : List (String × EVal) :=
  [("blank", .str "This field may not be blank."),
   ("max_length", .str "Longer than maximum length {max_length}."),
   ("min_length", .str "Shorter than minimum length {min_length}.")]

/-- `Contract.default_error_messages` (lines 240-242). -/
def contractDEM : List (String × EVal) :=
  [("invalid", .str "Invalid data. Expected a dictionary, but got {datatype}.")]

/-- The keyword arguments of `Field.__init__` (line 22-23), with the
constructor's default values. -/
structure FieldArgs where
  dump_only : Bool := false
  load_only : Bool := false
  required : Option Bool := Option.none
  default : DefaultV := DefaultV.missingD
  allow_none : Option Bool := Option.none
  dump_to : Option String := Option.none
  load_from : Option String := Option.none
  error_messages : List (String × EVal) := []
  validators : List ValidatorFn := []

/-- `default is None` (line 39). -/
def DefaultV.isNone : DefaultV → Bool
  | .lit PyVal.none => true
  | _ => false

/-- `default is missing` (line 34). -/
def DefaultV.isMissing : DefaultV → Bool
  | .missingD => true
  | _ => false

/-- `Field.__init__` (lines 22-51), parameterised by the subclass kind and
the concatenation of the subclass `default_error_messages` in MRO order
(line 43-48 walks `reversed(__mro__)` and `update`s, then applies the
per-instance overrides).  `_cached_root` is NOT set here — nothing sets it
before the `root` property first reads it. -/
def fieldInitCore (kind : FKind) (mroDEM : List (String × EVal)) (a : FieldArgs) : FieldState :=
  { kind := kind
    dump_only := a.dump_only
    load_only := a.load_only
    default := a.default
    required :=
      match a.required with
      | Option.none => a.default.isMissing
      | some r => r
    allow_none :=
      match a.allow_none with
      | Option.none => a.default.isNone
      | some b => b
    dump_to := a.dump_to
    load_from := a.load_from
    error_messages := dictUpd (dictUpd [] mroDEM) a.error_messages
    validators := a.validators
    field_name := Option.none
    parent := Option.none
    cached_root := Option.none }

/-- `fields.Field(...)` — base class instantiation. -/
def fieldInitBase (a : FieldArgs) : FieldState :=
  fieldInitCore .generic fieldDEM a

/-- Modelled from the spec: `RangeValidator` lives in
`contracts/validators.py`, which is not under `src/`; per spec §4.61 it
enforces inclusive numeric bounds, raising the `min_value`/`max_value`
messages with the bound interpolated.  No claim exercises it (it is only
installed when `min_value`/`max_value` are passed). -/
def rangeValidator (minv maxv : Option Int) (em : List (String × EVal)) : ValidatorFn :=
  fun v =>
    match v with
    | PyVal.int n =>
      match minv with
      | some m =>
        if n < m then
          .error (.validationError (.str (formatMsg
            (match alookup em "min_value" with
             | some (.str t) => t
             | _ => "Must be at least {min_value}.") [("min_value", toString m)])))
        else
          match maxv with
          | some mx =>
            if mx < n then
              .error (.validationError (.str (formatMsg
                (match alookup em "max_value" with
                 | some (.str t) => t
                 | _ => "Must be at most {max_value}.") [("max_value", toString mx)])))
            else .ok v
          | Option.none => .ok v
      | Option.none =>
        match maxv with
        | some mx =>
          if mx < n then
            .error (.validationError (.str (formatMsg
              (match alookup em "max_value" with
               | some (.str t) => t
               | _ => "Must be at most {max_value}.") [("max_value", toString mx)])))
          else .ok v
        | Option.none => .ok v
    | _ => .ok v

/-- `IntegerField.__init__` (lines 161-167): base init, then append a range
validator when a bound is given. -/
def integerFieldInit (minv maxv : Option Int) (a : FieldArgs) : FieldState :=
  let f := fieldInitCore .integer (fieldDEM ++ integerDEM) a
  if minv.isSome || maxv.isSome then
    { f with validators := f.validators ++ [rangeValidator minv maxv f.error_messages] }
  else f

/-- Modelled from the spec: `LengthValidator` lives in
`contracts/validators.py`, which is not under `src/`; per spec §4.60 it
enforces min/max length with the `min_length`/`max_length` messages.  No
claim exercises it. -/
def lengthValidator (minl maxl : Option Nat) (em : List (String × EVal)) : ValidatorFn :=
  fun v =>
    match v with
    | PyVal.str s =>
      match minl with
      | some m =>
        if s.length < m then
          .error (.validationError (.str (formatMsg
            (match alookup em "min_length" with
             | some (.str t) => t
             | _ => "Shorter than minimum length {min_length}.") [("min_length", toString m)])))
        else
          match maxl with
          | some mx =>
            if mx < s.length then
              .error (.validationError (.str (formatMsg
                (match alookup em "max_length" with
                 | some (.str t) => t
                 | _ => "Longer than maximum length {max_length}.") [("max_length", toString mx)])))
            else .ok v
          | Option.none => .ok v
      | Option.none =>
        match maxl with
        | some mx =>
          if mx < s.length then
            .error (.validationError (.str (formatMsg
              (match alookup em "max_length" with
               | some (.str t) => t
               | _ => "Longer than maximum length {max_length}.") [("max_length", toString mx)])))
          else .ok v
        | Option.none => .ok v
    | _ => .ok v

/-- `StringField.__init__` (lines 186-195). -/
def stringFieldInit (allow_blank trim_whitespace : Bool) (minl maxl : Option Nat)
    (a : FieldArgs) : FieldState :=
  let f := fieldInitCore (.stringK allow_blank trim_whitespace) (fieldDEM ++ stringDEM) a
  if minl.isSome || maxl.isSome then
    { f with validators := f.validators ++ [lengthValidator minl maxl f.error_messages] }
  else f

/-- Truthiness of the `dump_to`/`load_from` slots (line 57/60: `if not
self.dump_to`) — `None` and the empty string are falsy. -/
def falsyOptStr : Option String → Bool
  | Option.none => true
  | some s => s == ""

/-- `Field.bind` (lines 53-61).  It performs NO validation of either
argument: it assigns `field_name` and `parent` unconditionally and
back-fills falsy `dump_to`/`load_from` with the name. -/
def fieldBind (f : FieldState) (field_name : Option String) (parent : PyRef) : FieldState :=
  { f with
    field_name := field_name
    parent := some parent
    dump_to := if falsyOptStr f.dump_to then field_name else f.dump_to
    load_from := if falsyOptStr f.load_from then field_name else f.load_from }

/-- `Field.get_default` (lines 63-70). -/
def fieldDefault (f : FieldState) : PyVal :=
  match f.default with
  | .missingD => PyVal.missing
  | .producer g => g ()
  | .lit v => v

/-- `MISSING_ERROR_MESSAGE` (lines 11-12). -/
def MISSING_ERROR_MESSAGE : String :=
  "ValidationError raised by `{class_name}`, but error key `{key}` does " ++
  "not exist in the `error_messages` dictionary."

/-- `type(self).__name__` for the `_fail` assertion message. -/
def FKind.className : FKind → String
  | .generic => "Field"
  | .integer => "IntegerField"
  | .stringK _ _ => "StringField"

/-- `Field._fail` (lines 123-133): look the key up in `error_messages`
(a missing key becomes an `AssertionError`, line 130-133), format the
parameters in, and raise `ValidationError` — directly on the mapping when
the resolved message is a dict (line 127-128; `ValidationError(**message)`
is modelled from the spec §4.1: "if the resolved message is a structured
mapping, it is raised directly"), else on the formatted text.  `_fail`
never returns normally. -/
def fieldFail (cname : String) (em : List (String × EVal)) (key : String)
    (kwargs : List (String × String)) : Except PyExn PyVal :=
  match alookup em key with
  | Option.none =>
    .error (.assertionError (formatMsg MISSING_ERROR_MESSAGE
      [("class_name", cname), ("key", key)]))
  | some (.str t) => .error (.validationError (.str (formatMsg t kwargs)))
  | some (.dict kvs) => .error (.validationError (.dict kvs))
  | some m => .error (.validationError m)

/-- The loop body of `Field._validate` (lines 135-148): run each validator
in order; a `False` return triggers `self._fail('validator_failed')`, whose
`ValidationError` the surrounding `try` catches and collects like any other
non-dict validator error; a raised `ValidationError` whose message is a
dict is re-raised immediately (lines 142-143); any other exception
propagates; at the end a nonempty collection is raised as one
`ValidationError` over the list of collected error objects (lines
147-148). -/
def validateGo (cname : String) (em : List (String × EVal)) (value : PyVal) :
    List ValidatorFn → List EVal → Except PyExn Unit
  | [], errors =>
    if errors.isEmpty then .ok () else .error (.validationError (.list errors))
  | v :: vs, errors =>
    match v value with
    | .ok rv =>
      if isFalseV rv then
        match fieldFail cname em "validator_failed" [] with
        | .error (.validationError m) =>
          if m.isDict then .error (.validationError m)
          else validateGo cname em value vs (errors ++ [EVal.exn m])
        | .error e => .error e
        | .ok _ => validateGo cname em value vs errors
      else validateGo cname em value vs errors
    | .error (.validationError m) =>
      if m.isDict then .error (.validationError m)
      else validateGo cname em value vs (errors ++ [EVal.exn m])
    | .error e => .error e

/-- `Field._validate` (lines 135-148). -/
def fieldValidate (f : FieldState) (value : PyVal) : Except PyExn Unit :=
  validateGo f.kind.className f.error_messages value f.validators []

/-- `getattr(self.root, 'partial', False)` (line 83) together with the
`root` property (lines 100-115).  Line 105 reads `_cached_root` with the
two-argument `getattr`, which raises `AttributeError` whenever the
attribute is absent — and nothing ever sets it before that read (it is not
assigned in `__init__`, and the `setattr` on line 113 sits after the
raising read), so the walk up the `parent` chain on lines 109-113 is
unreachable.  When the attribute were present it would hold a field object
(always truthy), modelled here by the cached root's `partial` flag, the
only attribute `load` goes on to read. -/
def partialOfRoot (f : FieldState) : Except PyExn Bool :=
  match f.cached_root with
  | Option.none => .error (.attributeError "_cached_root")
  | some b => .ok b

/-- `IntegerField._load` (lines 169-173): `int(value)`, turning
`ValueError`/`TypeError` into the `invalid` failure; any other exception
(e.g. `OverflowError` on an infinite float) propagates unwrapped. -/
def integerLoad (f : FieldState) (value : PyVal) : Except PyExn PyVal :=
  match pyInt value with
  | .ok n => .ok (PyVal.int n)
  | .error (.valueError _) => fieldFail f.kind.className f.error_messages "invalid" []
  | .error (.typeError _) => fieldFail f.kind.className f.error_messages "invalid" []
  | .error e => .error e

/-- `StringField._load` (lines 197-208): cast to text, optionally strip,
then if the result is empty and blanks are not allowed either remap to
`None` (when `allow_none`) or fail `blank`. -/
def stringLoad (f : FieldState) (allow_blank trim_whitespace : Bool) (value : PyVal) :
    Except PyExn PyVal :=
  let s0 := pyStr value
  let s := if trim_whitespace then pyStrip s0 else s0
  if s == "" && !allow_blank then
    if f.allow_none then .ok PyVal.none
    else fieldFail f.kind.className f.error_messages "blank" []
  else .ok (PyVal.str s)

/-- `self._load(value)` (line 96) — dynamic dispatch on the field kind;
the base class raises `NotImplementedError` (lines 120-121). -/
def underLoad (f : FieldState) (value : PyVal) : Except PyExn PyVal :=
  match f.kind with
  | .generic => .error .notImplementedError
  | .integer => integerLoad f value
  | .stringK ab tw => stringLoad f ab tw value

/-- `Field.load` (lines 81-98).  The `missing` branch consults
`getattr(self.root, 'partial', False)` BEFORE the `required` check, and
`self.root` raises `AttributeError` whenever `_cached_root` is unset (see
`partialOfRoot`). -/
def fieldLoad (f : FieldState) (value : PyVal) : Except PyExn PyVal := do
  match value with
  | PyVal.missing =>
    let b ← partialOfRoot f
    if b then
      return PyVal.missing
    else if f.required then
      fieldFail f.kind.className f.error_messages "required" []
    else
      return fieldDefault f
  | PyVal.none =>
    if f.allow_none then
      return PyVal.none
    else
      fieldFail f.kind.className f.error_messages "null" []
  | v =>
    let converted ← underLoad f v
    let _ ← fieldValidate f converted
    return converted

/-! ## Contract (fields.py lines 214-405) -/

/-- A contract instance as used by `_load_single` and `_validate`: the
inherited field attributes (`fs`, built by `Field.__init__` through
`super().__init__`), the contract-level flags, the bound field lists the
constructor computed, and the overridable hooks (their defaults mirror
lines 283-302: `pre_load`/`post_load` return their first argument,
`post_validate` returns `None`). -/
structure CState where
  fs : FieldState
  many : Bool
  only : List String
  partialFlag : Bool
  load_fields : List FieldState
  dump_fields : List FieldState
  pre_load : PyVal → Except PyExn PyVal
  post_load : PyVal → PyVal → Except PyExn PyVal
  post_validate : PyVal → Except PyExn PyVal

/-- A plain contract instance over the given bound load-fields, with
default hooks. -/
def contractNew (loadFields dumpFields : List FieldState) (vals : List ValidatorFn)
    (pf : Bool) : CState :=
  { fs := { fieldInitCore .generic (fieldDEM ++ contractDEM) { validators := vals } with
      cached_root := Option.none }
    many := false
    only := []
    partialFlag := pf
    load_fields := loadFields
    dump_fields := dumpFields
    pre_load := fun d => .ok d
    post_load := fun d _ => .ok d
    post_validate := fun _ => .ok PyVal.none }

/-- `Contract._get_value` (lines 304-308): mapping lookup with the
`missing` default for dict data; attribute lookup (with the same default)
otherwise — the modelled `PyVal`s carry no attributes, so that branch
yields `missing`. -/
def getValue (data : PyVal) (k : Option String) : PyVal :=
  match data, k with
  | PyVal.dict kvs, some key => dictGet kvs key
  | _, _ => PyVal.missing

/-- The field keys `_load_single` writes under: `field.field_name`, which
`Contract.__init__` bound to the declared name before any load runs (the
`""` fallback stands for the unreachable unbound case). -/
def keyOf (f : FieldState) : String :=
  f.field_name.getD ""

/-- The per-field loop of `Contract._load_single` (lines 366-375): fetch
the raw value by `load_from`, run the field's `load`, record non-`missing`
results under the field's own name, catch `ValidationError` per field into
the `errors` dict and keep going; any other exception propagates and
aborts the pass. -/
def loadSingleGo (data : PyVal) :
    List FieldState → List (String × PyVal) → List (String × EVal) →
    Except PyExn (List (String × PyVal) × List (String × EVal))
  | [], result, errors => .ok (result, errors)
  | f :: rest, result, errors =>
    match fieldLoad f (getValue data f.load_from) with
    | .ok v =>
      if isMissingV v then loadSingleGo data rest result errors
      else loadSingleGo data rest (dictSet result (keyOf f) v) errors
    | .error (.validationError m) =>
      loadSingleGo data rest result (dictSet errors (keyOf f) (EVal.exn m))
    | .error e => .error e

/-- `Contract._load_single` (lines 357-380): fail `invalid` on non-dict
input (naming the input's type), run `pre_load`, loop over the load-fields
collecting per-field errors, raise them once as a single aggregated
`ValidationError` mapping field name to that field's error, else run
`post_load` on the result. -/
def contractLoadSingle (c : CState) (data : PyVal) : Except PyExn PyVal := do
  match data with
  | PyVal.dict _ => pure ()
  | other =>
    discard (fieldFail "Contract" c.fs.error_messages "invalid"
      [("datatype", typeName other)])
  let predata ← c.pre_load data
  let pair ← loadSingleGo predata c.load_fields [] []
  if pair.2.isEmpty then
    c.post_load (PyVal.dict pair.1) predata
  else
    .error (.validationError (.dict pair.2))

/-- `Contract._validate` (lines 382-404): collect the `ValidationError`s of
`super()._validate` (the field-level validators) and of the
`post_validate` hook — any other exception propagates — then fold them
into one dict: a dict-message error is merged via `d.update(err.message)`,
anything else is assigned to the reserved `'_contract'` key; raise the dict
as one `ValidationError` if it is nonempty. -/
def contractValidate (c : CState) (value : PyVal) : Except PyExn Unit := do
  let errors1 ←
    match fieldValidate c.fs value with
    | .ok _ => pure ([] : List EVal)
    | .error (.validationError m) => pure [EVal.exn m]
    | .error e => throw e
  let errors2 ←
    match c.post_validate value with
    | .ok _ => pure ([] : List EVal)
    | .error (.validationError m) => pure [EVal.exn m]
    | .error e => throw e
  let d := (errors1 ++ errors2).foldl
    (fun d e =>
      match e with
      | EVal.exn (EVal.dict kvs) => dictUpd d kvs
      | other => dictSet d "_contract" other)
    ([] : List (String × EVal))
  if d.isEmpty then return () else throw (.validationError (.dict d))

/-! ## Contract construction (fields.py lines 244-275) -/

/-- The heap of field objects.  `Contract.__init__` sets `self.fields =
self._declared_fields` (line 255; the `copy.deepcopy` on line 254 is
commented out), so every instance of a contract class iterates over and
binds the SAME field objects — the class-level `_declared_fields` dict,
modelled as a shared list of (declared name, store index). -/
structure World where
  store : List FieldState

def storeGet (w : World) (i : Nat) : FieldState :=
  w.store.getD i (fieldInitBase {})

def storeSet (w : World) (i : Nat) (f : FieldState) : World :=
  ⟨w.store.set i f⟩

/-- The loop of `Contract.__init__` (lines 265-275): bind each declared
field in place (mutating the shared object) to its name and to THIS
instance, then partition the fields whose (just-bound) name is in the
active set into the load/dump lists. -/
def contractBindLoop (instId : Nat) (fieldNames : List String) :
    List (String × Nat) → World → List Nat → List Nat → World × List Nat × List Nat
  | [], w, lf, df => (w, lf, df)
  | (name, fid) :: rest, w, lf, df =>
    let f2 := fieldBind (storeGet w fid) (some name) (PyRef.contractInst instId)
    let w2 := storeSet w fid f2
    let active :=
      match f2.field_name with
      | some nm => fieldNames.contains nm
      | Option.none => false
    if active then
      if f2.load_only then
        contractBindLoop instId fieldNames rest w2 (lf ++ [fid]) df
      else if f2.dump_only then
        contractBindLoop instId fieldNames rest w2 lf (df ++ [fid])
      else
        contractBindLoop instId fieldNames rest w2 (lf ++ [fid]) (df ++ [fid])
    else
      contractBindLoop instId fieldNames rest w2 lf df

/-- `Contract.__init__` field processing (lines 255-275) over the shared
store: compute the active name set from `only` (all declared names when
`only` is empty, line 257-260), then run the bind/partition loop.  Returns
the mutated store and the `_load_fields`/`_dump_fields` indices. -/
def contractInitFields (w : World) (declared : List (String × Nat)) (instId : Nat)
    (only : List String) : World × List Nat × List Nat :=
  let fieldNames := if only.isEmpty then declared.map Prod.fst else only
  contractBindLoop instId fieldNames declared w [] []

/-- The keyword-argument surface of contract construction: Python's calling
convention for `Contract.__init__(self, many=False, only=None,
partial=False, *args, **kwargs)` (line 244) forwarding `**kwargs` to
`Field.__init__(self, dump_only=False, load_only=False, required=None,
default=missing, allow_none=None, dump_to=None, load_from=None,
error_messages=None, validators=None)` (lines 22-23), which has no
`**kwargs` of its own: a keyword outside the union of the two parameter
lists raises `TypeError`. -/
def contractKwargNames : List String :=
  ["many", "only", "partial",
   "dump_only", "load_only", "required", "default", "allow_none",
   "dump_to", "load_from", "error_messages", "validators"]

def contractInitAccepts (kwnames : List String) : Except PyExn Unit :=
  match kwnames.find? (fun k => !(contractKwargNames.contains k)) with
  | some k =>
    .error (.typeError ("__init__() got an unexpected keyword argument " ++ k))
  | Option.none => .ok ()

/-! ## Fixtures and specification-side helpers for the claims -/

/-- `True` when `int()` on this value raises `ValueError` or `TypeError`
(the two exception classes `IntegerField._load` converts into the
`invalid` failure). -/
def pyIntVT (v : PyVal) : Bool :=
  match pyInt v with
  | .error (.valueError _) => true
  | .error (.typeError _) => true
  | _ => false

/-- A default-configured `IntegerField()`. -/
def c10Field : FieldState :=
  integerFieldInit Option.none Option.none {}

/-- A `StringField(allow_blank=…, allow_none=…)` with the default
`trim_whitespace=True` and no length bounds. -/
def c8Field (allow_blank anone : Bool) : FieldState :=
  stringFieldInit allow_blank true Option.none Option.none { allow_none := some anone }

/-- A validator outcome that neither cuts the `_validate` run (a raised
dict-message `ValidationError`) nor escapes it (a non-`ValidationError`
exception). -/
def noncut (r : Except PyExn PyVal) : Bool :=
  match r with
  | .ok _ => true
  | .error (.validationError m) => !m.isDict
  | .error _ => false

/-- The failure contributions `Field._validate` collects when every
validator outcome is `noncut`: a `False` return contributes the resolved
`validator_failed` message, a raised flat-message error contributes the
error itself, in declaration order. -/
def collectFails (failMsg : EVal) (value : PyVal) : List ValidatorFn → List EVal
  | [] => []
  | v :: vs =>
    match v value with
    | .ok rv =>
      if isFalseV rv then EVal.exn failMsg :: collectFails failMsg value vs
      else collectFails failMsg value vs
    | .error (.validationError m) => EVal.exn m :: collectFails failMsg value vs
    | .error _ => collectFails failMsg value vs

/-- What one field contributes to a `_load_single` pass over `data`. -/
def fieldOutcome (data : PyVal) (f : FieldState) : Except PyExn PyVal :=
  fieldLoad f (getValue data f.load_from)

/-- An outcome `_load_single` handles without aborting: a result or a
`ValidationError`. -/
def okOrVE (r : Except PyExn PyVal) : Bool :=
  match r with
  | .ok _ => true
  | .error e => e.isVE

/-- The (name, value) pairs a `_load_single` pass records. -/
def okEntries (data : PyVal) : List FieldState → List (String × PyVal)
  | [] => []
  | f :: rest =>
    match fieldOutcome data f with
    | .ok v =>
      if isMissingV v then okEntries data rest
      else (keyOf f, v) :: okEntries data rest
    | .error _ => okEntries data rest

/-- The (name, error) pairs a `_load_single` pass collects. -/
def errEntries (data : PyVal) : List FieldState → List (String × EVal)
  | [] => []
  | f :: rest =>
    match fieldOutcome data f with
    | .error (.validationError m) => (keyOf f, EVal.exn m) :: errEntries data rest
    | _ => errEntries data rest

/-- A one-field contract class: the class-level `_declared_fields` maps the
declared name `"a"` to the single shared field object (store index 0). -/
def c2World : World := ⟨[fieldInitBase {}]⟩

def c2Declared : List (String × Nat) := [("a", 0)]

/-- A contract-as-field whose single validator raises a dict-message error
`\x7b"k": ["m1"]\x7d` and whose `post_validate` raises the dict-message
error `\x7b"k": ["m2"]\x7d` — the two mappings share the key `"k"`. -/
def c3Contract : CState :=
  { contractNew [] []
      [fun _ => .error (.validationError (.dict [("k", EVal.list [EVal.str "m1"])]))] false with
    post_validate := fun _ => .error (.validationError (.dict [("k", EVal.list [EVal.str "m2"])])) }

/-- A contract-as-field with one flat validator error and one flat
`post_validate` error — two flat contributions to `'_contract'`. -/
def c3ContractFlat : CState :=
  { contractNew [] [] [fun _ => .error (.validationError (.str "f1"))] false with
    post_validate := fun _ => .error (.validationError (.str "f2")) }

/-- Two plain fields bound under a contract, each of which fails `load`
with the `null` validation error on the inputs below. -/
def c6FieldA : FieldState := fieldBind (fieldInitBase {}) (some "a") (PyRef.contractInst 1)

def c6FieldB : FieldState := fieldBind (fieldInitBase {}) (some "b") (PyRef.contractInst 1)

def c6Contract : CState := contractNew [c6FieldA, c6FieldB] [] [] false

/-- A field with two validators: the first returns `False`, the second
raises a flat-message error. -/
def c7Field : FieldState :=
  fieldInitBase { validators :=
    [fun _ => .ok (PyVal.bool false),
     fun _ => .error (.validationError (.str "v2"))] }

/-- A field whose first validator returns `False` and whose second raises
a dict-message error (the array-cutting case). -/
def c7FieldCut : FieldState :=
  fieldInitBase { validators :=
    [fun _ => .ok (PyVal.bool false),
     fun _ => .error (.validationError (.dict [("z", EVal.str "zz")]))] }

/-- An `IntegerField` whose single validator raises a `TypeError`. -/
def c9Field : FieldState :=
  integerFieldInit Option.none Option.none
    { validators := [fun _ => .error (.typeError "boom from validator")] }

/-! ## Dictionary lemmas -/

theorem alookup_dictSet_self {α : Type} (d : List (String × α)) (k : String) (v : α) :
    alookup (dictSet d k v) k = some v := by
  induction d with
  | nil => simp [dictSet, alookup]
  | cons kv rest ih =>
    obtain ⟨k1, v1⟩ := kv
    by_cases h : k1 = k <;> simp [dictSet, alookup, h, ih]

theorem alookup_dictSet_ne {α : Type} (d : List (String × α)) (k k2 : String) (v : α)
    (h : k2 ≠ k) : alookup (dictSet d k v) k2 = alookup d k2 := by
  have hk : ¬ k = k2 := fun hh => h hh.symm
  induction d with
  | nil => simp [dictSet, alookup, hk]
  | cons kv rest ih =>
    obtain ⟨k1, v1⟩ := kv
    by_cases h1 : k1 = k
    · subst h1
      simp [dictSet, alookup, hk]
    · simp only [dictSet, if_neg h1, alookup]
      by_cases h2 : k1 = k2 <;> simp [h2, ih]

theorem alookup_dictUpd_notmem {α : Type} (d m : List (String × α)) (k : String)
    (h : k ∉ m.map Prod.fst) : alookup (dictUpd d m) k = alookup d k := by
  induction m generalizing d with
  | nil => simp [dictUpd]
  | cons kv rest ih =>
    obtain ⟨k1, v1⟩ := kv
    simp only [List.map_cons, List.mem_cons, not_or] at h
    have step : dictUpd d ((k1, v1) :: rest) = dictUpd (dictSet d k1 v1) rest := rfl
    rw [step, ih (dictSet d k1 v1) h.2, alookup_dictSet_ne d k1 k v1 h.1]

theorem alookup_dictUpd_mem {α : Type} (d m : List (String × α)) (k : String)
    (hnodup : (m.map Prod.fst).Nodup) (h : k ∈ m.map Prod.fst) :
    alookup (dictUpd d m) k = alookup m k := by
  induction m generalizing d with
  | nil => simp at h
  | cons kv rest ih =>
    obtain ⟨k1, v1⟩ := kv
    simp only [List.map_cons, List.nodup_cons] at hnodup
    have step : dictUpd d ((k1, v1) :: rest) = dictUpd (dictSet d k1 v1) rest := rfl
    simp only [List.map_cons, List.mem_cons] at h
    rcases h with h | h
    · subst h
      rw [step, alookup_dictUpd_notmem (dictSet d k v1) rest k hnodup.1,
        alookup_dictSet_self]
      simp [alookup]
    · have hne : ¬ k1 = k := fun hh => hnodup.1 (hh ▸ h)
      rw [step, ih (dictSet d k1 v1) hnodup.2 h]
      simp [alookup, hne]

theorem alookup_isSome_of_mem {α : Type} (l : List (String × α)) (k : String)
    (h : k ∈ l.map Prod.fst) : (alookup l k).isSome := by
  induction l with
  | nil => simp at h
  | cons kv rest ih =>
    obtain ⟨k1, v1⟩ := kv
    simp only [List.map_cons, List.mem_cons] at h
    by_cases h1 : k1 = k
    · simp [alookup, h1]
    · rcases h with h | h
      · exact absurd h.symm h1
      · simp [alookup, h1, ih h]

theorem dictSet_eq_append {α : Type} (d : List (String × α)) (k : String) (v : α)
    (h : k ∉ d.map Prod.fst) : dictSet d k v = d ++ [(k, v)] := by
  induction d with
  | nil => rfl
  | cons kv rest ih =>
    obtain ⟨k1, v1⟩ := kv
    simp only [List.map_cons, List.mem_cons, not_or] at h
    have h1 : ¬ k1 = k := fun hh => h.1 hh.symm
    simp [dictSet, h1, ih h.2]

/-! ## Claim theorems -/

/-- C1 (code bug): `load(missing)` on a required field does NOT fail with
the `required` validation error — `Field.__init__` never sets
`_cached_root`, so the `root` property's two-argument `getattr` raises
`AttributeError` before the `required` check is reached, for every field
regardless of configuration. -/
theorem c1_load_missing_raises_attribute_error :
    (∀ a : FieldArgs, (fieldInitBase a).cached_root = Option.none) ∧
    (∀ f : FieldState, f.cached_root = Option.none →
      fieldLoad f PyVal.missing = .error (.attributeError "_cached_root")) := by
  constructor
  · intro a
    rfl
  · intro f h
    simp only [fieldLoad, partialOfRoot, h]
    rfl

/-- C1 witness: a concrete `Field(required=True)` evaluated at `missing`. -/
theorem c1_witness :
    fieldLoad (fieldInitBase { required := some true }) PyVal.missing =
      .error (.attributeError "_cached_root") :=
  c1_load_missing_raises_attribute_error.2 _
    (c1_load_missing_raises_attribute_error.1 _)

/-- C2 (code bug): constructing a second instance of the same contract
class rebinds the SAME field object (`self.fields` is the class-level
`_declared_fields`, the deepcopy being commented out): after the second
construction, the field object that instance 1 bound now carries instance
2 as its parent. -/
theorem c2_second_construction_rebinds_shared_field :
    (storeGet (contractInitFields c2World c2Declared 1 []).1 0).parent =
      some (PyRef.contractInst 1) ∧
    (storeGet (contractInitFields (contractInitFields c2World c2Declared 1 []).1
        c2Declared 2 []).1 0).parent = some (PyRef.contractInst 2) ∧
    (storeGet (contractInitFields (contractInitFields c2World c2Declared 1 []).1
        c2Declared 2 []).1 0).parent ≠ some (PyRef.contractInst 1) := by
  refine ⟨rfl, rfl, ?_⟩
  intro h
  have h3 := Option.some.inj h
  injection h3 with h4
  exact absurd h4 (by decide)

/-- C4 (code bug): `Field.bind` performs no validation — it completes
normally for an empty or absent (`None`) name and for an arbitrary
parent (including non-contract values), recording them verbatim. -/
theorem c4_bind_accepts_invalid_arguments (f : FieldState) (p : PyRef) :
    (fieldBind f (some "") p).field_name = some "" ∧
    (fieldBind f (some "") p).parent = some p ∧
    (fieldBind f Option.none p).field_name = Option.none ∧
    (fieldBind f Option.none p).parent = some p :=
  ⟨rfl, rfl, rfl, rfl⟩

/-- C5 counterexample: passing `exclude=...` to contract construction is a
`TypeError` — `Contract.__init__` declares only `many`, `only`, `partial`
and forwards everything else to `Field.__init__`, which has no `exclude`
parameter. -/
theorem c5_counterexample :
    contractInitAccepts ["exclude"] =
      .error (.typeError "__init__() got an unexpected keyword argument exclude") := rfl

/-- A field object none of whose declared names is in the active name set
is appended to neither accumulator by the `Contract.__init__` loop. -/
theorem contractBindLoop_excluded (instId : Nat) (fieldNames : List String)
    (l : List (String × Nat)) (w : World) (lf df : List Nat) (fid : Nat)
    (hl : fid ∉ lf) (hd : fid ∉ df)
    (h : ∀ p ∈ l, p.2 = fid → fieldNames.contains p.1 = false) :
    fid ∉ (contractBindLoop instId fieldNames l w lf df).2.1 ∧
    fid ∉ (contractBindLoop instId fieldNames l w lf df).2.2 := by
  induction l generalizing w lf df with
  | nil => exact ⟨hl, hd⟩
  | cons p rest ih =>
    obtain ⟨name, i⟩ := p
    have hrest : ∀ q ∈ rest, q.2 = fid → fieldNames.contains q.1 = false := by
      intro q hq
      exact h q (List.mem_cons_of_mem _ hq)
    by_cases hi : i = fid
    · subst hi
      have hname : fieldNames.contains name = false :=
        h (name, i) (List.mem_cons_self _ _) rfl
      simp only [contractBindLoop, fieldBind, hname]
      exact ih _ _ _ hl hd hrest
    · have hlf : fid ∉ lf ++ [i] := by
        intro hmem
        rcases List.mem_append.1 hmem with hmem | hmem
        · exact hl hmem
        · exact hi (List.mem_singleton.1 hmem).symm
      have hdf : fid ∉ df ++ [i] := by
        intro hmem
        rcases List.mem_append.1 hmem with hmem | hmem
        · exact hd hmem
        · exact hi (List.mem_singleton.1 hmem).symm
      simp only [contractBindLoop, fieldBind]
      by_cases ha : fieldNames.contains name
      · simp only [ha]
        by_cases h1 : (storeGet w i).load_only
        · simp only [h1, if_true]
          exact ih _ _ _ hlf hd hrest
        · by_cases h2 : (storeGet w i).dump_only
          · simp only [h1, h2]
            exact ih _ _ _ hl hdf hrest
          · simp only [h1, h2]
            exact ih _ _ _ hlf hdf hrest
      · simp only [Bool.not_eq_true] at ha
        simp only [ha]
        exact ih _ _ _ hl hd hrest

/-- C5 amended: contract construction accepts `many`, `only` and `partial`
(and the `Field.__init__` keywords) but no `exclude`; a field whose every
declared name falls outside a nonempty `only` participates in neither the
load-field set nor the dump-field set. -/
theorem c5_only_restricts_both_sets (w : World) (declared : List (String × Nat))
    (instId : Nat) (only : List String) (fid : Nat)
    (honly : only.isEmpty = false)
    (h : ∀ p ∈ declared, p.2 = fid → only.contains p.1 = false) :
    contractInitAccepts ["many", "only", "partial"] = .ok () ∧
    fid ∉ (contractInitFields w declared instId only).2.1 ∧
    fid ∉ (contractInitFields w declared instId only).2.2 := by
  refine ⟨rfl, ?_⟩
  have hn : (if only.isEmpty then declared.map Prod.fst else only) = only := by
    simp [honly]
  simp only [contractInitFields, hn]
  exact contractBindLoop_excluded instId only declared w [] [] fid
    (List.not_mem_nil fid) (List.not_mem_nil fid) h

/-- C5 witness: a two-field contract built with `only=["a"]` leaves the
field declared as `"b"` (store index 1) out of both sets. -/
theorem c5_witness :
    1 ∉ (contractInitFields ⟨[fieldInitBase {}, fieldInitBase {}]⟩
        [("a", 0), ("b", 1)] 7 ["a"]).2.1 ∧
    1 ∉ (contractInitFields ⟨[fieldInitBase {}, fieldInitBase {}]⟩
        [("a", 0), ("b", 1)] 7 ["a"]).2.2 :=
  (c5_only_restricts_both_sets ⟨[fieldInitBase {}, fieldInitBase {}]⟩
    [("a", 0), ("b", 1)] 7 ["a"] 1 rfl
    (by
      intro p hp h2
      rcases List.mem_cons.1 hp with h1 | h1
      · subst h1
        simp at h2
      · rcases List.mem_cons.1 h1 with h1 | h1
        · subst h1
          rfl
        · cases h1)).2

/-- C8 (confirmed): with `trim_whitespace=True` (the default),
`load(" abc ")` returns `"abc"` for every `allow_blank`/`allow_none`
combination; on input that is empty after trimming, `load` fails with the
`blank` error when both flags are off, returns `""` when `allow_blank` is
on, and returns `None` when only `allow_none` is on. -/
theorem c8_string_trim_and_blank (a b : Bool) (s : String) (hs : pyStrip s = "") :
    fieldLoad (c8Field a b) (PyVal.str " abc ") = .ok (PyVal.str "abc") ∧
    fieldLoad (c8Field false false) (PyVal.str s) =
      .error (.validationError (.str "This field may not be blank.")) ∧
    fieldLoad (c8Field true b) (PyVal.str s) = .ok (PyVal.str "") ∧
    fieldLoad (c8Field false true) (PyVal.str s) = .ok PyVal.none := by
  refine ⟨?_, ?_, ?_, ?_⟩
  · show fieldLoad (c8Field a b) (PyVal.str " abc ") = .ok (PyVal.str "abc")
    have htrim : pyStrip " abc " = "abc" := by decide
    simp only [fieldLoad, underLoad, c8Field, stringFieldInit, fieldInitCore, stringLoad,
      pyStr, htrim]
    rfl
  · simp only [fieldLoad, underLoad, c8Field, stringFieldInit, fieldInitCore, stringLoad,
      pyStr, hs]
    rfl
  · simp only [fieldLoad, underLoad, c8Field, stringFieldInit, fieldInitCore, stringLoad,
      pyStr, hs]
    rfl
  · simp only [fieldLoad, underLoad, c8Field, stringFieldInit, fieldInitCore, stringLoad,
      pyStr, hs]
    rfl

/-- C8 witness: the blank-path conjuncts evaluated at the concrete input
`" "` (whitespace-only, empty after trimming). -/
theorem c8_witness :
    fieldLoad (c8Field false false) (PyVal.str " ") =
      .error (.validationError (.str "This field may not be blank.")) ∧
    fieldLoad (c8Field true false) (PyVal.str " ") = .ok (PyVal.str "") ∧
    fieldLoad (c8Field false true) (PyVal.str " ") = .ok PyVal.none :=
  ⟨(c8_string_trim_and_blank false false " " (by decide)).2.1,
   (c8_string_trim_and_blank false false " " (by decide)).2.2.1,
   (c8_string_trim_and_blank false false " " (by decide)).2.2.2⟩

/-- C10 (confirmed): a default `IntegerField()` loads every finite float as
its truncation toward zero (so `load(1.0) == 1`), and whenever `load`
fails with the `invalid` message, `int()` on that input raises
`ValueError` or `TypeError` (an `OverflowError` from an infinite float
propagates instead of becoming `invalid`). -/
theorem c10_integer_truncation_and_invalid (q : ℚ) (v : PyVal)
    (h : fieldLoad c10Field v =
      .error (.validationError (.str "A valid integer is required."))) :
    fieldLoad c10Field (PyVal.float (.finite q)) = .ok (PyVal.int (ratTrunc q)) ∧
    pyIntVT v = true := by
  constructor
  · rfl
  · cases v with
    | missing =>
      have h2 : (Except.error (PyExn.attributeError "_cached_root") : Except PyExn PyVal) =
          .error (.validationError (.str "A valid integer is required.")) := h
      injection h2 with h3
      injection h3
    | none =>
      have h2 : (Except.error (PyExn.validationError
            (EVal.str "This field may not be null.")) : Except PyExn PyVal) =
          .error (.validationError (.str "A valid integer is required.")) := h
      injection h2 with h3
      injection h3 with h4
      injection h4 with h5
      exact absurd h5 (by decide)
    | bool b =>
      have h2 : (Except.ok (PyVal.int (if b then 1 else 0)) : Except PyExn PyVal) =
          .error (.validationError (.str "A valid integer is required.")) := h
      injection h2
    | int n =>
      have h2 : (Except.ok (PyVal.int n) : Except PyExn PyVal) =
          .error (.validationError (.str "A valid integer is required.")) := h
      injection h2
    | float x =>
      cases x with
      | finite q2 =>
        have h2 : (Except.ok (PyVal.int (ratTrunc q2)) : Except PyExn PyVal) =
            .error (.validationError (.str "A valid integer is required.")) := h
        injection h2
      | inf =>
        have h2 : (Except.error (PyExn.overflowError
              "cannot convert float infinity to integer") : Except PyExn PyVal) =
            .error (.validationError (.str "A valid integer is required.")) := h
        injection h2 with h3
        injection h3
      | ninf =>
        have h2 : (Except.error (PyExn.overflowError
              "cannot convert float infinity to integer") : Except PyExn PyVal) =
            .error (.validationError (.str "A valid integer is required.")) := h
        injection h2 with h3
        injection h3
      | nan => rfl
    | str s =>
      cases hp : parseIntText s with
      | some n =>
        have key : fieldLoad c10Field (PyVal.str s) = .ok (PyVal.int n) := by
          simp [fieldLoad, underLoad, c10Field, integerFieldInit, fieldInitCore,
            integerLoad, pyInt, hp, fieldValidate, validateGo]
          rfl
        rw [key] at h
        injection h
      | none =>
        simp only [pyIntVT, pyInt, hp]
    | list xs =>
      have h2 : fieldLoad c10Field (PyVal.list xs) =
          .error (.validationError (.str "A valid integer is required.")) := h
      rfl
    | dict kvs => rfl

/-- C10 witness: `load(1.5)` returns `1` and `load("abc")`'s `invalid`
failure corresponds to `int("abc")` raising `ValueError`. -/
theorem c10_witness :
    fieldLoad c10Field (PyVal.float (.finite (mkRat 3 2))) = .ok (PyVal.int 1) ∧
    pyIntVT (PyVal.str "abc") = true := by
  have hmain := c10_integer_truncation_and_invalid (mkRat 3 2) (PyVal.str "abc") (by rfl)
  refine ⟨?_, hmain.2⟩
  rw [hmain.1]
  have h1 : ratTrunc (mkRat 3 2) = 1 := by decide
  rw [h1]

theorem exceptBindOk {α β : Type} (a : α) (g : α → Except PyExn β) :
    (Except.ok a >>= g) = g a := rfl

theorem exceptBindErr {α β : Type} (e : PyExn) (g : α → Except PyExn β) :
    ((Except.error e : Except PyExn α) >>= g) = Except.error e := rfl

/-- With the default `validator_failed` message, the `False` branch of
`_validate` raises `ValidationError("Invalid value.")`. -/
theorem fieldFail_validator_failed (cname : String) (em : List (String × EVal))
    (hmsg : alookup em "validator_failed" = some (EVal.str "Invalid value.")) :
    fieldFail cname em "validator_failed" [] =
      .error (.validationError (.str "Invalid value.")) := by
  simp [fieldFail, hmsg, formatMsg]

/-- The `_validate` loop under cut-free outcomes is collect-then-raise:
every validator is consulted, and the collected failures are raised
together, in order, at the end. -/
theorem validateGo_noncut (cname : String) (em : List (String × EVal)) (x : PyVal)
    (hmsg : alookup em "validator_failed" = some (EVal.str "Invalid value.")) :
    ∀ (vs : List ValidatorFn) (acc : List EVal),
      (∀ u ∈ vs, noncut (u x) = true) →
      validateGo cname em x vs acc =
        (if (acc ++ collectFails (EVal.str "Invalid value.") x vs).isEmpty then .ok ()
         else .error (.validationError
           (.list (acc ++ collectFails (EVal.str "Invalid value.") x vs)))) := by
  intro vs
  induction vs with
  | nil =>
    intro acc hvs
    simp only [validateGo, collectFails]
    rw [List.append_nil]
  | cons u rest ih =>
    intro acc hvs
    have hu : noncut (u x) = true := hvs u (List.mem_cons_self _ _)
    have hrest : ∀ w ∈ rest, noncut (w x) = true := fun w hw =>
      hvs w (List.mem_cons_of_mem _ hw)
    cases hux : u x with
    | ok rv =>
      by_cases hb : isFalseV rv
      · have hc : collectFails (EVal.str "Invalid value.") x (u :: rest) =
            EVal.exn (EVal.str "Invalid value.") ::
              collectFails (EVal.str "Invalid value.") x rest := by
          simp [collectFails, hux, hb]
        rw [hc]
        simp only [validateGo, hux, hb, if_true,
          fieldFail_validator_failed cname em hmsg, EVal.isDict,
          Bool.false_eq_true, if_false]
        rw [ih (acc ++ [EVal.exn (EVal.str "Invalid value.")]) hrest]
        rw [List.append_assoc, List.singleton_append]
      · have hc : collectFails (EVal.str "Invalid value.") x (u :: rest) =
            collectFails (EVal.str "Invalid value.") x rest := by
          simp [collectFails, hux, hb]
        rw [hc]
        simp only [validateGo, hux, hb, Bool.false_eq_true, if_false]
        exact ih acc hrest
    | error e =>
      cases e with
      | validationError m =>
        have hnd : m.isDict = false := by
          simp only [noncut, hux] at hu
          simpa using hu
        have hc : collectFails (EVal.str "Invalid value.") x (u :: rest) =
            EVal.exn m :: collectFails (EVal.str "Invalid value.") x rest := by
          simp [collectFails, hux]
        rw [hc]
        simp only [validateGo, hux, hnd, Bool.false_eq_true, if_false]
        rw [ih (acc ++ [EVal.exn m]) hrest]
        rw [List.append_assoc, List.singleton_append]
      | attributeError s => simp [noncut, hux] at hu
      | typeError s => simp [noncut, hux] at hu
      | valueError s => simp [noncut, hux] at hu
      | overflowError s => simp [noncut, hux] at hu
      | assertionError s => simp [noncut, hux] at hu
      | notImplementedError => simp [noncut, hux] at hu

/-- A validator raising a dict-message `ValidationError` after a cut-free
prefix makes the loop re-raise that error alone, discarding everything
collected so far. -/
theorem validateGo_cut (cname : String) (em : List (String × EVal)) (x : PyVal)
    (hmsg : alookup em "validator_failed" = some (EVal.str "Invalid value.")) :
    ∀ (pre post : List ValidatorFn) (u : ValidatorFn) (m : EVal) (acc : List EVal),
      (∀ w ∈ pre, noncut (w x) = true) →
      u x = .error (.validationError m) → m.isDict = true →
      validateGo cname em x (pre ++ u :: post) acc = .error (.validationError m) := by
  intro pre
  induction pre with
  | nil =>
    intro post u m acc hpre hu hd
    simp only [List.nil_append, validateGo, hu, hd, if_true]
  | cons w rest ih =>
    intro post u m acc hpre hu hd
    have hw : noncut (w x) = true := hpre w (List.mem_cons_self _ _)
    have hrest : ∀ y ∈ rest, noncut (y x) = true := fun y hy =>
      hpre y (List.mem_cons_of_mem _ hy)
    cases hwx : w x with
    | ok rv =>
      by_cases hb : isFalseV rv
      · simp only [List.cons_append, validateGo, hwx, hb, if_true,
          fieldFail_validator_failed cname em hmsg, EVal.isDict]
        exact ih post u m _ hrest hu hd
      · simp only [List.cons_append, validateGo, hwx, hb, Bool.false_eq_true, if_false]
        exact ih post u m acc hrest hu hd
    | error e =>
      cases e with
      | validationError m2 =>
        have hnd : m2.isDict = false := by
          simp only [noncut, hwx] at hw
          simpa using hw
        simp only [List.cons_append, validateGo, hwx, hnd, Bool.false_eq_true, if_false]
        exact ih post u m _ hrest hu hd
      | attributeError s => simp [noncut, hwx] at hw
      | typeError s => simp [noncut, hwx] at hw
      | valueError s => simp [noncut, hwx] at hw
      | overflowError s => simp [noncut, hwx] at hw
      | assertionError s => simp [noncut, hwx] at hw
      | notImplementedError => simp [noncut, hwx] at hw

/-- C7 (confirmed): with the default `validator_failed` message, (a) when
no validator raises a dict-message error or a non-`ValidationError`
exception, `_validate` runs every validator and raises the collected
failures (`False` returns becoming the generic failure) together, in
declaration order, as one error — succeeding iff nothing failed; and (b) a
validator that raises a dict-message error after such a prefix makes its
error propagate alone, discarding the previously collected failures. -/
theorem c7_validator_aggregation :
    (∀ (f : FieldState) (x : PyVal),
      alookup f.error_messages "validator_failed" = some (EVal.str "Invalid value.") →
      (∀ u ∈ f.validators, noncut (u x) = true) →
      fieldValidate f x =
        (if (collectFails (EVal.str "Invalid value.") x f.validators).isEmpty then .ok ()
         else .error (.validationError
           (.list (collectFails (EVal.str "Invalid value.") x f.validators))))) ∧
    (∀ (f : FieldState) (x : PyVal) (pre post : List ValidatorFn)
      (u : ValidatorFn) (m : EVal),
      alookup f.error_messages "validator_failed" = some (EVal.str "Invalid value.") →
      f.validators = pre ++ u :: post →
      (∀ w ∈ pre, noncut (w x) = true) →
      u x = .error (.validationError m) → m.isDict = true →
      fieldValidate f x = .error (.validationError m)) := by
  constructor
  · intro f x hmsg hvs
    have h := validateGo_noncut f.kind.className f.error_messages x hmsg
      f.validators [] hvs
    rw [fieldValidate, h]
    simp only [List.nil_append]
  · intro f x pre post u m hmsg hvs hpre hu hd
    rw [fieldValidate, hvs]
    exact validateGo_cut f.kind.className f.error_messages x hmsg
      pre post u m [] hpre hu hd

/-- C7 witness: a `False`-returning validator followed by a flat-raising
one yields one aggregated error with both messages in order; with a
dict-raising second validator, the dict error propagates alone. -/
theorem c7_witness :
    fieldValidate c7Field (PyVal.int 1) =
      .error (.validationError (.list
        [EVal.exn (EVal.str "Invalid value."), EVal.exn (EVal.str "v2")])) ∧
    fieldValidate c7FieldCut (PyVal.int 1) =
      .error (.validationError (.dict [("z", EVal.str "zz")])) := by
  constructor
  · have h := c7_validator_aggregation.1 c7Field (PyVal.int 1) rfl (by
      intro u hu
      rcases List.mem_cons.1 hu with h1 | h1
      · subst h1
        rfl
      · rcases List.mem_cons.1 h1 with h2 | h2
        · subst h2
          rfl
        · exact absurd h2 (List.not_mem_nil u))
    rw [h]
    rfl
  · exact c7_validator_aggregation.2 c7FieldCut (PyVal.int 1)
      [fun _ => .ok (PyVal.bool false)] []
      (fun _ => .error (.validationError (.dict [("z", EVal.str "zz")])))
      (EVal.dict [("z", EVal.str "zz")]) rfl rfl
      (by
        intro w hw
        rcases List.mem_cons.1 hw with h1 | h1
        · subst h1
          rfl
        · exact absurd h1 (List.not_mem_nil w))
      rfl rfl

/-- A validator raising a non-`ValidationError` exception after a cut-free
prefix makes the `_validate` loop propagate that exception unwrapped,
regardless of what was collected and of the validators still pending. -/
theorem validateGo_escape (cname : String) (em : List (String × EVal)) (x : PyVal)
    (hmsg : alookup em "validator_failed" = some (EVal.str "Invalid value.")) :
    ∀ (pre post : List ValidatorFn) (u : ValidatorFn) (e : PyExn) (acc : List EVal),
      (∀ w ∈ pre, noncut (w x) = true) →
      u x = .error e → e.isVE = false →
      validateGo cname em x (pre ++ u :: post) acc = .error e := by
  intro pre
  induction pre with
  | nil =>
    intro post u e acc hpre hu he
    cases e with
    | validationError m => simp [PyExn.isVE] at he
    | attributeError s => simp only [List.nil_append, validateGo, hu]
    | typeError s => simp only [List.nil_append, validateGo, hu]
    | valueError s => simp only [List.nil_append, validateGo, hu]
    | overflowError s => simp only [List.nil_append, validateGo, hu]
    | assertionError s => simp only [List.nil_append, validateGo, hu]
    | notImplementedError => simp only [List.nil_append, validateGo, hu]
  | cons w rest ih =>
    intro post u e acc hpre hu he
    have hw : noncut (w x) = true := hpre w (List.mem_cons_self _ _)
    have hrest : ∀ y ∈ rest, noncut (y x) = true := fun y hy =>
      hpre y (List.mem_cons_of_mem _ hy)
    cases hwx : w x with
    | ok rv =>
      by_cases hb : isFalseV rv
      · simp only [List.cons_append, validateGo, hwx, hb, if_true,
          fieldFail_validator_failed cname em hmsg, EVal.isDict,
          Bool.false_eq_true, if_false]
        exact ih post u e _ hrest hu he
      · simp only [List.cons_append, validateGo, hwx, hb, Bool.false_eq_true, if_false]
        exact ih post u e acc hrest hu he
    | error e2 =>
      cases e2 with
      | validationError m2 =>
        have hnd : m2.isDict = false := by
          simp only [noncut, hwx] at hw
          simpa using hw
        simp only [List.cons_append, validateGo, hwx, hnd, Bool.false_eq_true, if_false]
        exact ih post u e _ hrest hu he
      | attributeError s => simp [noncut, hwx] at hw
      | typeError s => simp [noncut, hwx] at hw
      | valueError s => simp [noncut, hwx] at hw
      | overflowError s => simp [noncut, hwx] at hw
      | assertionError s => simp [noncut, hwx] at hw
      | notImplementedError => simp [noncut, hwx] at hw

/-- C9 (confirmed): a validator raising a non-`ValidationError` exception
(after a cut-free prefix) makes `_validate` — and hence `Field.load`, for
any raw input that converts successfully — propagate that exact exception
unwrapped: it is not turned into a validation failure, not collected, and
the validators after it (arbitrary `post`) never influence the result. -/
theorem c9_nonvalidation_exception_escapes (f : FieldState) (x raw : PyVal)
    (pre post : List ValidatorFn) (u : ValidatorFn) (e : PyExn)
    (hmsg : alookup f.error_messages "validator_failed" = some (EVal.str "Invalid value."))
    (hvs : f.validators = pre ++ u :: post)
    (hpre : ∀ w ∈ pre, noncut (w x) = true)
    (hu : u x = .error e) (he : e.isVE = false)
    (hm : raw ≠ PyVal.missing) (hn : raw ≠ PyVal.none)
    (hconv : underLoad f raw = .ok x) :
    fieldValidate f x = .error e ∧ fieldLoad f raw = .error e := by
  have hval : fieldValidate f x = .error e := by
    rw [fieldValidate, hvs]
    exact validateGo_escape f.kind.className f.error_messages x hmsg
      pre post u e [] hpre hu he
  refine ⟨hval, ?_⟩
  cases raw with
  | missing => exact absurd rfl hm
  | none => exact absurd rfl hn
  | bool b => simp only [fieldLoad, hconv, exceptBindOk, hval, exceptBindErr]
  | int n => simp only [fieldLoad, hconv, exceptBindOk, hval, exceptBindErr]
  | float fx => simp only [fieldLoad, hconv, exceptBindOk, hval, exceptBindErr]
  | str s => simp only [fieldLoad, hconv, exceptBindOk, hval, exceptBindErr]
  | list xs => simp only [fieldLoad, hconv, exceptBindOk, hval, exceptBindErr]
  | dict kvs => simp only [fieldLoad, hconv, exceptBindOk, hval, exceptBindErr]

/-- C9 witness: an `IntegerField` whose validator raises `TypeError`
propagates the `TypeError` out of `load(5)` unwrapped. -/
theorem c9_witness :
    fieldLoad c9Field (PyVal.int 5) = .error (.typeError "boom from validator") :=
  (c9_nonvalidation_exception_escapes c9Field (PyVal.int 5) (PyVal.int 5) [] []
    (fun _ => .error (.typeError "boom from validator"))
    (.typeError "boom from validator") rfl rfl
    (fun w hw => absurd hw (List.not_mem_nil w))
    rfl rfl (fun hh => PyVal.noConfusion hh) (fun hh => PyVal.noConfusion hh) rfl).2

/-- C3 counterexample: in `Contract._validate`, when the validator pass and
`post_validate` each contribute a dict-message error sharing the key `"k"`,
the aggregate keeps only the later contribution (`d.update` overwrites);
two flat contributions keep only the later one under `'_contract'`; the
concatenated aggregate the claim describes is NOT produced. -/
theorem c3_counterexample :
    contractValidate c3Contract (PyVal.dict []) =
      .error (.validationError (.dict [("k", EVal.list [EVal.str "m2"])])) ∧
    contractValidate c3ContractFlat (PyVal.dict []) =
      .error (.validationError (.dict [("_contract", EVal.exn (EVal.str "f2"))])) ∧
    contractValidate c3Contract (PyVal.dict []) ≠
      .error (.validationError (.dict [("k", EVal.list [EVal.str "m1", EVal.str "m2"])])) := by
  refine ⟨rfl, rfl, ?_⟩
  intro h
  have h2 : (Except.error (PyExn.validationError
        (EVal.dict [("k", EVal.list [EVal.str "m2"])])) : Except PyExn Unit) =
      .error (.validationError (.dict [("k", EVal.list [EVal.str "m1", EVal.str "m2"])])) := h
  injection h2 with h3
  injection h3 with h4
  injection h4 with h5
  injection h5 with h6 h7
  injection h6 with h8 h9
  injection h9 with h10
  injection h10 with h11 h12
  injection h12

/-- C3 amended: in `Contract._validate` the contributions merge by plain
dict assignment — on a key collision between the validator pass's mapping
and `post_validate`'s mapping, the later (`post_validate`) value wins; of
two flat contributions only the later is retained under `'_contract'`. -/
theorem c3_later_contribution_overwrites :
    (∀ (c : CState) (x : PyVal) (kvs1 kvs2 : List (String × EVal)) (k : String),
      fieldValidate c.fs x = .error (.validationError (.dict kvs1)) →
      c.post_validate x = .error (.validationError (.dict kvs2)) →
      (kvs2.map Prod.fst).Nodup → k ∈ kvs2.map Prod.fst →
      ∃ d, contractValidate c x = .error (.validationError (.dict d)) ∧
        alookup d k = alookup kvs2 k) ∧
    (∀ (c : CState) (x : PyVal) (m1 m2 : EVal),
      fieldValidate c.fs x = .error (.validationError m1) → m1.isDict = false →
      c.post_validate x = .error (.validationError m2) → m2.isDict = false →
      contractValidate c x =
        .error (.validationError (.dict [("_contract", EVal.exn m2)]))) := by
  constructor
  · intro c x kvs1 kvs2 k h1 h2 hnodup hk
    have hlook : alookup (dictUpd (dictUpd ([] : List (String × EVal)) kvs1) kvs2) k =
        alookup kvs2 k := alookup_dictUpd_mem _ _ _ hnodup hk
    have hsome : (alookup kvs2 k).isSome := alookup_isSome_of_mem kvs2 k hk
    have hne : (dictUpd (dictUpd ([] : List (String × EVal)) kvs1) kvs2).isEmpty = false := by
      cases hd : dictUpd (dictUpd ([] : List (String × EVal)) kvs1) kvs2 with
      | nil =>
        rw [hd] at hlook
        rw [← hlook] at hsome
        simp [alookup] at hsome
      | cons a l => rfl
    refine ⟨dictUpd (dictUpd ([] : List (String × EVal)) kvs1) kvs2, ?_, hlook⟩
    simp only [contractValidate, h1, h2]
    show (if (dictUpd (dictUpd ([] : List (String × EVal)) kvs1) kvs2).isEmpty
        then (Except.ok () : Except PyExn Unit)
        else .error (.validationError
          (.dict (dictUpd (dictUpd ([] : List (String × EVal)) kvs1) kvs2)))) = _
    rw [hne]
    simp
  · intro c x m1 m2 h1 hm1 h2 hm2
    simp only [contractValidate, h1, h2]
    cases m1 with
    | dict kvs => simp [EVal.isDict] at hm1
    | str s1 =>
      cases m2 with
      | dict kvs2 => simp [EVal.isDict] at hm2
      | str s2 => rfl
      | num n2 => rfl
      | list xs2 => rfl
      | exn e2 => rfl
    | num n1 =>
      cases m2 with
      | dict kvs2 => simp [EVal.isDict] at hm2
      | str s2 => rfl
      | num n2 => rfl
      | list xs2 => rfl
      | exn e2 => rfl
    | list xs1 =>
      cases m2 with
      | dict kvs2 => simp [EVal.isDict] at hm2
      | str s2 => rfl
      | num n2 => rfl
      | list xs2 => rfl
      | exn e2 => rfl
    | exn e1 =>
      cases m2 with
      | dict kvs2 => simp [EVal.isDict] at hm2
      | str s2 => rfl
      | num n2 => rfl
      | list xs2 => rfl
      | exn e2 => rfl

/-- C3 witness: the amended overwrite behaviour evaluated on the concrete
fixtures (shared key `"k"`; two flat contributions). -/
theorem c3_witness :
    (∃ d, contractValidate c3Contract (PyVal.dict []) =
        .error (.validationError (.dict d)) ∧
      alookup d "k" = alookup [("k", EVal.list [EVal.str "m2"])] "k") ∧
    contractValidate c3ContractFlat (PyVal.dict []) =
      .error (.validationError (.dict [("_contract", EVal.exn (EVal.str "f2"))])) :=
  ⟨c3_later_contribution_overwrites.1 c3Contract (PyVal.dict [])
      [("k", EVal.list [EVal.str "m1"])] [("k", EVal.list [EVal.str "m2"])] "k"
      rfl rfl (by simp) (by simp),
   c3_later_contribution_overwrites.2 c3ContractFlat (PyVal.dict [])
      (EVal.list [EVal.exn (EVal.str "f1")]) (EVal.str "f2") rfl rfl rfl rfl⟩

/-- The `_load_single` loop, when every field outcome is a result or a
`ValidationError` and the bound names are distinct, appends exactly the
successful entries to `result` and the per-field errors to `errors`,
attempting every field. -/
theorem loadSingleGo_spec (data : PyVal) :
    ∀ (fields : List FieldState) (result : List (String × PyVal))
      (errors : List (String × EVal)),
      (∀ f ∈ fields, okOrVE (fieldOutcome data f) = true) →
      (∀ f ∈ fields, keyOf f ∉ result.map Prod.fst) →
      (∀ f ∈ fields, keyOf f ∉ errors.map Prod.fst) →
      (fields.map keyOf).Nodup →
      loadSingleGo data fields result errors =
        .ok (result ++ okEntries data fields, errors ++ errEntries data fields) := by
  intro fields
  induction fields with
  | nil =>
    intro result errors _ _ _ _
    simp [loadSingleGo, okEntries, errEntries]
  | cons f rest ih =>
    intro result errors hok hres herr hnodup
    have hokf : okOrVE (fieldOutcome data f) = true := hok f (List.mem_cons_self _ _)
    have hokr : ∀ g ∈ rest, okOrVE (fieldOutcome data g) = true := fun g hg =>
      hok g (List.mem_cons_of_mem _ hg)
    have hresf : keyOf f ∉ result.map Prod.fst := hres f (List.mem_cons_self _ _)
    have herrf : keyOf f ∉ errors.map Prod.fst := herr f (List.mem_cons_self _ _)
    simp only [List.map_cons, List.nodup_cons] at hnodup
    have hkne : ∀ g ∈ rest, keyOf g ≠ keyOf f := by
      intro g hg hgf
      exact hnodup.1 (hgf ▸ List.mem_map_of_mem keyOf hg)
    cases hout : fieldLoad f (getValue data f.load_from) with
    | ok v =>
      have hoc : fieldOutcome data f = .ok v := hout
      by_cases hm : isMissingV v
      · have ho : okEntries data (f :: rest) = okEntries data rest := by
          simp [okEntries, hoc, hm]
        have he : errEntries data (f :: rest) = errEntries data rest := by
          simp [errEntries, hoc]
        rw [ho, he]
        simp only [loadSingleGo, hout, hm, if_true]
        exact ih result errors hokr
          (fun g hg => hres g (List.mem_cons_of_mem _ hg))
          (fun g hg => herr g (List.mem_cons_of_mem _ hg)) hnodup.2
      · have ho : okEntries data (f :: rest) = (keyOf f, v) :: okEntries data rest := by
          simp [okEntries, hoc, hm]
        have he : errEntries data (f :: rest) = errEntries data rest := by
          simp [errEntries, hoc]
        rw [ho, he]
        simp only [loadSingleGo, hout, hm, Bool.false_eq_true, if_false]
        rw [dictSet_eq_append result (keyOf f) v hresf]
        rw [ih (result ++ [(keyOf f, v)]) errors hokr
          (by
            intro g hg hmem
            simp only [List.map_append, List.map_cons, List.map_nil] at hmem
            rcases List.mem_append.1 hmem with hmem | hmem
            · exact hres g (List.mem_cons_of_mem _ hg) hmem
            · exact hkne g hg (List.mem_singleton.1 hmem))
          (fun g hg => herr g (List.mem_cons_of_mem _ hg)) hnodup.2]
        rw [List.append_assoc, List.singleton_append]
    | error e =>
      cases e with
      | validationError m =>
        have hoc : fieldOutcome data f = .error (.validationError m) := hout
        have ho : okEntries data (f :: rest) = okEntries data rest := by
          simp [okEntries, hoc]
        have he : errEntries data (f :: rest) =
            (keyOf f, EVal.exn m) :: errEntries data rest := by
          simp [errEntries, hoc]
        rw [ho, he]
        simp only [loadSingleGo, hout]
        rw [dictSet_eq_append errors (keyOf f) (EVal.exn m) herrf]
        rw [ih result (errors ++ [(keyOf f, EVal.exn m)]) hokr
          (fun g hg => hres g (List.mem_cons_of_mem _ hg))
          (by
            intro g hg hmem
            simp only [List.map_append, List.map_cons, List.map_nil] at hmem
            rcases List.mem_append.1 hmem with hmem | hmem
            · exact herr g (List.mem_cons_of_mem _ hg) hmem
            · exact hkne g hg (List.mem_singleton.1 hmem)) hnodup.2]
        rw [List.append_assoc, List.singleton_append]
      | attributeError s => simp [okOrVE, fieldOutcome, hout, PyExn.isVE] at hokf
      | typeError s => simp [okOrVE, fieldOutcome, hout, PyExn.isVE] at hokf
      | valueError s => simp [okOrVE, fieldOutcome, hout, PyExn.isVE] at hokf
      | overflowError s => simp [okOrVE, fieldOutcome, hout, PyExn.isVE] at hokf
      | assertionError s => simp [okOrVE, fieldOutcome, hout, PyExn.isVE] at hokf
      | notImplementedError => simp [okOrVE, fieldOutcome, hout, PyExn.isVE] at hokf

/-- C6 (confirmed): over a mapping input with default hooks, distinct bound
names, and per-field outcomes that are results or validation errors, a
single-item contract load attempts every load-field — a field's validation
error never aborts the pass — and either returns the result mapping (no
error kept alongside) or raises exactly one aggregated error mapping each
failed field's name to that field's error. -/
theorem c6_load_single_aggregates (c : CState) (kvs : List (String × PyVal))
    (hpre : c.pre_load = fun d => .ok d)
    (hpost : c.post_load = fun d _ => .ok d)
    (hnodup : (c.load_fields.map keyOf).Nodup)
    (hok : ∀ f ∈ c.load_fields, okOrVE (fieldOutcome (PyVal.dict kvs) f) = true) :
    (errEntries (PyVal.dict kvs) c.load_fields = [] →
      contractLoadSingle c (PyVal.dict kvs) =
        .ok (PyVal.dict (okEntries (PyVal.dict kvs) c.load_fields))) ∧
    (errEntries (PyVal.dict kvs) c.load_fields ≠ [] →
      contractLoadSingle c (PyVal.dict kvs) =
        .error (.validationError (.dict (errEntries (PyVal.dict kvs) c.load_fields)))) := by
  have hgo := loadSingleGo_spec (PyVal.dict kvs) c.load_fields [] [] hok
    (by intro f _ hmem; simp at hmem)
    (by intro f _ hmem; simp at hmem) hnodup
  simp only [List.nil_append] at hgo
  constructor
  · intro hempty
    simp only [contractLoadSingle, hpre, hpost, hgo, hempty, exceptBindOk]
    rfl
  · intro hne
    have hempty : (errEntries (PyVal.dict kvs) c.load_fields).isEmpty = false := by
      cases herr : errEntries (PyVal.dict kvs) c.load_fields with
      | nil => exact absurd herr hne
      | cons a l => rfl
    simp only [contractLoadSingle, hpre, hpost, hgo, hempty, exceptBindOk]
    rfl

/-- C6 witness: a two-field contract where BOTH fields fail the `null`
check — the aggregated error carries both entries, so the first failure
did not abort the pass, and no partial result is returned. -/
theorem c6_witness :
    contractLoadSingle c6Contract (PyVal.dict [("a", PyVal.none), ("b", PyVal.none)]) =
      .error (.validationError (.dict
        [("a", EVal.exn (EVal.str "This field may not be null.")),
         ("b", EVal.exn (EVal.str "This field may not be null."))])) := by
  have hvalE : errEntries (PyVal.dict [("a", PyVal.none), ("b", PyVal.none)])
      c6Contract.load_fields =
      [("a", EVal.exn (EVal.str "This field may not be null.")),
       ("b", EVal.exn (EVal.str "This field may not be null."))] := rfl
  have h := c6_load_single_aggregates c6Contract
    [("a", PyVal.none), ("b", PyVal.none)] rfl rfl
    (by
      rw [show c6Contract.load_fields.map keyOf = ["a", "b"] from rfl]
      decide)
    (by
      intro f hf
      rcases List.mem_cons.1 hf with h1 | h1
      · subst h1
        rfl
      · rcases List.mem_cons.1 h1 with h2 | h2
        · subst h2
          rfl
        · exact absurd h2 (List.not_mem_nil f))
  have h2 := h.2 (by rw [hvalE]; exact fun hh => List.noConfusion hh)
  rw [h2, hvalE]

/-- C4 witness: `bind` with an empty name and a non-contract parent (the
integer `1`) completes normally, recording both. -/
theorem c4_witness :
    (fieldBind (fieldInitBase {}) (some "") (PyRef.value (PyVal.int 1))).field_name =
      some "" ∧
    (fieldBind (fieldInitBase {}) (some "") (PyRef.value (PyVal.int 1))).parent =
      some (PyRef.value (PyVal.int 1)) ∧
    (fieldBind (fieldInitBase {}) Option.none (PyRef.value (PyVal.int 1))).field_name =
      Option.none ∧
    (fieldBind (fieldInitBase {}) Option.none (PyRef.value (PyVal.int 1))).parent =
      some (PyRef.value (PyVal.int 1)) :=
  c4_bind_accepts_invalid_arguments (fieldInitBase {}) (PyRef.value (PyVal.int 1))
